import Mathlib

/-!
Verification of the socket.io client core: the exponential-backoff retry
strategy, the client reconnection lifecycle, and the polling-transport frame
encoder. Definitions are shallow embeddings of the Go source. Go float64
delays are modelled as rationals; the backoff attempt counter (a float64 in
the source that is only ever 0 or incremented by 1) is modelled as a natural
number, and the "Infinity" reconnection-attempt budget as the top element of
an extended natural number.
-/

/-- Shallow embedding of the Go struct RetryStrategy: base delay ms, ceiling
max, growth factor, jitter fraction, and the attempt counter. -/
structure RetryStrategy where
  ms : ℚ
  max : ℚ
  factor : ℚ
  jitter : ℚ
  attempts : ℕ
deriving DecidableEq

/-- NewBackOff copies the option fields into a fresh strategy. -/
def NewBackOff (opts : RetryStrategy) : RetryStrategy :=
  { ms := opts.ms, max := opts.max, factor := opts.factor,
    jitter := opts.jitter, attempts := opts.attempts }

/-- Duration computes ms * factor ^ attempts, increments attempts, applies
jitter when jitter > 0 using one uniform draw r (deviation is the floor of
r * jitter * candidate, added or subtracted according to the parity of
floor of r * 10), and clamps the result to max from above. The Go method
mutates the receiver and returns a float; here it returns the delay together
with the updated state, with the random draw passed explicitly. -/
def RetryStrategy.Duration (b : RetryStrategy) (r : ℚ) : ℚ × RetryStrategy :=
  let ms := b.ms * b.factor ^ b.attempts
  let b' := { b with attempts := b.attempts + 1 }
  if b.jitter > 0 then
    let deviation : ℚ := ((⌊r * b.jitter * ms⌋ : ℤ) : ℚ)
    let jitterDecision := ⌊r * 10⌋ % 2
    if jitterDecision = 0 then (min (ms - deviation) b.max, b')
    else (min (ms + deviation) b.max, b')
  else
    (min ms b.max, b')

/-- Reset sets the attempt counter back to zero. -/
def RetryStrategy.Reset (b : RetryStrategy) : RetryStrategy :=
  { b with attempts := 0 }

/-- The value returned by the Nth successive Duration call (zero-indexed),
threading the updated strategy state through the calls; every call receives
the same random draw r (irrelevant when jitter is disabled). -/
def RetryStrategy.callN (b : RetryStrategy) (r : ℚ) : ℕ → ℚ
  | 0 => (b.Duration r).1
  | n + 1 => ((b.Duration r).2).callN r n

/-- The Go client's default backoff configuration restricted to the C1
scenario numbers: base 100, factor 2, jitter 0, max 100000, attempts 0. -/
def sampleBackoff : RetryStrategy :=
  { ms := 100, max := 100000, factor := 2, jitter := 0, attempts := 0 }

lemma RetryStrategy.Duration_snd (b : RetryStrategy) (r : ℚ) :
    (b.Duration r).2 = { b with attempts := b.attempts + 1 } := by
  unfold RetryStrategy.Duration
  by_cases h : b.jitter > 0
  · simp only [h, if_true]
    split <;> rfl
  · simp [h]

lemma RetryStrategy.Duration_fst_of_no_jitter (b : RetryStrategy) (r : ℚ)
    (hj : b.jitter = 0) :
    (b.Duration r).1 = min (b.ms * b.factor ^ b.attempts) b.max := by
  unfold RetryStrategy.Duration
  simp [hj]

lemma RetryStrategy.callN_of_no_jitter (r : ℚ) :
    ∀ (N : ℕ) (b : RetryStrategy), b.jitter = 0 →
      b.callN r N = min (b.ms * b.factor ^ (b.attempts + N)) b.max := by
  intro N
  induction N with
  | zero =>
    intro b hj
    simp [RetryStrategy.callN, RetryStrategy.Duration_fst_of_no_jitter b r hj]
  | succ n ih =>
    intro b hj
    have h2 := RetryStrategy.Duration_snd b r
    simp only [RetryStrategy.callN, h2]
    rw [ih { b with attempts := b.attempts + 1 } hj]
    ring_nf

/-- Claim C1: with jitter disabled and attempts starting at 0, for every
base delay, every factor at least 1 and every max delay, the Nth Duration
call (zero-indexed, no intervening Reset) returns
min (baseDelay * factor ^ N) maxDelay. -/
theorem duration_nth_call_no_jitter (b : RetryStrategy) (r : ℚ)
    (hj : b.jitter = 0) (ha : b.attempts = 0) (hf : 1 ≤ b.factor) (N : ℕ) :
    b.callN r N = min (b.ms * b.factor ^ N) b.max := by
  have := RetryStrategy.callN_of_no_jitter r N b hj
  rwa [ha, Nat.zero_add] at this

/-- Witness for C1: the scenario base 100, factor 2, jitter 0, max 100000
yields 100, 200, 400, 800 on the first four Duration calls. -/
theorem duration_nth_call_no_jitter_witness :
    sampleBackoff.callN 0 0 = min ((100 : ℚ) * 2 ^ 0) 100000 ∧
    sampleBackoff.callN 0 1 = min ((100 : ℚ) * 2 ^ 1) 100000 ∧
    sampleBackoff.callN 0 2 = min ((100 : ℚ) * 2 ^ 2) 100000 ∧
    sampleBackoff.callN 0 3 = min ((100 : ℚ) * 2 ^ 3) 100000 ∧
    min ((100 : ℚ) * 2 ^ 0) 100000 = 100 ∧
    min ((100 : ℚ) * 2 ^ 1) 100000 = 200 ∧
    min ((100 : ℚ) * 2 ^ 2) 100000 = 400 ∧
    min ((100 : ℚ) * 2 ^ 3) 100000 = 800 :=
  ⟨duration_nth_call_no_jitter sampleBackoff 0 rfl rfl (by norm_num [sampleBackoff]) 0,
   duration_nth_call_no_jitter sampleBackoff 0 rfl rfl (by norm_num [sampleBackoff]) 1,
   duration_nth_call_no_jitter sampleBackoff 0 rfl rfl (by norm_num [sampleBackoff]) 2,
   duration_nth_call_no_jitter sampleBackoff 0 rfl rfl (by norm_num [sampleBackoff]) 3,
   by norm_num, by norm_num, by norm_num, by norm_num⟩

/-- Claim C3: for every strategy state with nonnegative base, factor at
least 1, nonnegative max, jitter fraction in the unit interval, and every
random draw r in the half-open unit interval, the returned delay lies
between 0 and maxDelay. -/
theorem duration_bounds (b : RetryStrategy) (r : ℚ)
    (hms : 0 ≤ b.ms) (hf : 1 ≤ b.factor) (hmax : 0 ≤ b.max)
    (hj0 : 0 ≤ b.jitter) (hj1 : b.jitter ≤ 1) (hr0 : 0 ≤ r) (hr1 : r < 1) :
    0 ≤ (b.Duration r).1 ∧ (b.Duration r).1 ≤ b.max := by
  have hf0 : (0 : ℚ) ≤ b.factor := le_trans zero_le_one hf
  have hcand : 0 ≤ b.ms * b.factor ^ b.attempts :=
    mul_nonneg hms (pow_nonneg hf0 _)
  set ms := b.ms * b.factor ^ b.attempts with hmsdef
  have hdev_le : ((⌊r * b.jitter * ms⌋ : ℤ) : ℚ) ≤ ms := by
    have h1 : ((⌊r * b.jitter * ms⌋ : ℤ) : ℚ) ≤ r * b.jitter * ms :=
      Int.floor_le _
    have h2 : r * b.jitter ≤ 1 :=
      mul_le_one₀ (le_of_lt hr1) hj0 hj1
    have h3 : r * b.jitter * ms ≤ 1 * ms :=
      mul_le_mul_of_nonneg_right h2 hcand
    linarith
  have hdev_nonneg : (0 : ℚ) ≤ ((⌊r * b.jitter * ms⌋ : ℤ) : ℚ) := by
    have : (0 : ℚ) ≤ r * b.jitter * ms :=
      mul_nonneg (mul_nonneg hr0 hj0) hcand
    exact_mod_cast Int.floor_nonneg.mpr this
  unfold RetryStrategy.Duration
  by_cases hj : b.jitter > 0
  · simp only [hj, if_true, ← hmsdef]
    split
    · exact ⟨le_min (by linarith) hmax, min_le_right _ _⟩
    · exact ⟨le_min (by linarith) hmax, min_le_right _ _⟩
  · simp only [hj, if_false, ← hmsdef]
    exact ⟨le_min hcand hmax, min_le_right _ _⟩

/-- Witness for C3: the bound holds for a concrete strategy with jitter
one half, attempt counter 3, and random draw one third. -/
theorem duration_bounds_witness :
    0 ≤ ((⟨100, 1000, 2, 1/2, 3⟩ : RetryStrategy).Duration (1/3)).1 ∧
    ((⟨100, 1000, 2, 1/2, 3⟩ : RetryStrategy).Duration (1/3)).1 ≤
      (⟨100, 1000, 2, 1/2, 3⟩ : RetryStrategy).max :=
  duration_bounds ⟨100, 1000, 2, 1/2, 3⟩ (1/3) (by norm_num) (by norm_num)
    (by norm_num) (by norm_num) (by norm_num) (by norm_num) (by norm_num)

/-- Shallow embedding of the reconnection-relevant fields of the Go Client
struct: the owned backoff, the reconnection on/off switch, the in-flight
guard flag, and the attempt budget (float Infinity in the source, modelled
as the top of the extended naturals). -/
structure ClientState where
  retry : RetryStrategy
  reconnection : Bool
  reconnecting : Bool
  reconnectionAttempts : ℕ∞
deriving DecidableEq

/-- Distinguishes the three ways reconnect returns: the nil return from the
in-flight guard, the reconnect-exhausted error, and the nil return after the
retry loop ends with a successful Connect. -/
inductive ReconnectRet
  | nilGuard
  | errExhausted
  | nilDone
deriving DecidableEq

/-- Observable trace of one reconnect invocation: its return value, how many
times Connect was called, the sleeps performed (each recorded with its delay
value), and the client state afterwards. -/
structure ReconnectTrace where
  ret : ReconnectRet
  connectCalls : ℕ
  slept : List ℚ
  final : ClientState
deriving DecidableEq

/-- Embedding of the for loop inside Client.reconnect: each iteration sleeps
the (already fixed) delay and calls Connect; on success it resets the backoff,
clears the in-flight flag and breaks; on failure it clears the in-flight flag
and loops again. The outcome of the k-th Connect call is given by the oracle
connect; fuel bounds the iterations modelled (none means the loop was still
running when the fuel ran out). Returns the state at loop exit and the index
one past the last Connect call. -/
def reconnectLoop (connect : ℕ → Bool) : ℕ → ClientState → ℕ → Option (ClientState × ℕ)
  | 0, _, _ => none
  | fuel + 1, st, k =>
    if connect k then
      some ({ st with retry := st.retry.Reset, reconnecting := false }, k + 1)
    else
      reconnectLoop connect fuel { st with reconnecting := false } (k + 1)

/-- Embedding of Client.reconnect: return nil at once if a reconnection is in
flight; if the attempt counter has reached the budget, reset the backoff,
clear the flag and return the exhaustion error; otherwise draw one delay from
the backoff, set the in-flight flag and enter the retry loop. -/
def ClientState.reconnect (connect : ℕ → Bool) (r : ℚ) (fuel : ℕ)
    (st : ClientState) : Option ReconnectTrace :=
  if st.reconnecting then
    some { ret := .nilGuard, connectCalls := 0, slept := [], final := st }
  else if st.reconnectionAttempts ≤ (st.retry.attempts : ℕ∞) then
    some { ret := .errExhausted, connectCalls := 0, slept := [],
           final := { st with retry := st.retry.Reset, reconnecting := false } }
  else
    let d := st.retry.Duration r
    match reconnectLoop connect fuel
        { st with retry := d.2, reconnecting := true } 0 with
    | none => none
    | some (st2, calls) =>
      some { ret := .nilDone, connectCalls := calls,
             slept := List.replicate calls d.1, final := st2 }

/-- Embedding of Client.Close: when reconnection is enabled it does not close
the underlying connection; it resets the backoff, clears the in-flight flag
and calls reconnect. When reconnection is disabled it closes the underlying
connection. The boolean records whether the underlying connection's Close was
invoked. -/
def ClientState.CloseClient (connect : ℕ → Bool) (r : ℚ) (fuel : ℕ)
    (st : ClientState) : Bool × Option ReconnectTrace :=
  if st.reconnection then
    (false, ClientState.reconnect connect r fuel
      { st with retry := st.retry.Reset, reconnecting := false })
  else
    (true, none)

lemma reconnectLoop_first_success (connect : ℕ → Bool) :
    ∀ (n k : ℕ) (st : ClientState),
      (∀ i, i < n → connect (k + i) = false) → connect (k + n) = true →
      reconnectLoop connect (n + 1) st k =
        some ({ st with retry := st.retry.Reset, reconnecting := false },
              k + n + 1) := by
  intro n
  induction n with
  | zero =>
    intro k st _ hs
    simp only [Nat.add_zero] at hs
    simp [reconnectLoop, hs]
  | succ m ih =>
    intro k st hfail hs
    have h0 : connect k = false := by
      have := hfail 0 (Nat.succ_pos m)
      simpa using this
    have hfail' : ∀ i, i < m → connect (k + 1 + i) = false := by
      intro i hi
      have := hfail (i + 1) (by omega)
      rwa [show k + (i + 1) = k + 1 + i by omega] at this
    have hs' : connect (k + 1 + m) = true := by
      rwa [show k + (m + 1) = k + 1 + m by omega] at hs
    have := ih (k + 1) { st with reconnecting := false } hfail' hs'
    rw [reconnectLoop, if_neg (by simp [h0]), this]
    simp only [Option.some.injEq, Prod.mk.injEq]
    exact ⟨trivial, by omega⟩

/-- Claim C2 counterexample: a reconnect invocation that passes the in-flight
guard and the attempt-budget check, with a Connect oracle that fails on the
first call and succeeds on the second, performs two Connect calls and two
sleeps within the single invocation — the method does not return after the
first Connect failure, contradicting the claim that it performs exactly one
Connect retry per invocation. -/
theorem reconnect_single_retry_counterexample :
    (ClientState.reconnect (fun i => decide (1 ≤ i)) 0 2
        ⟨⟨100, 1000, 2, 0, 0⟩, true, false, ⊤⟩).map
      (fun t => t.connectCalls) = some 2 ∧
    (ClientState.reconnect (fun i => decide (1 ≤ i)) 0 2
        ⟨⟨100, 1000, 2, 0, 0⟩, true, false, ⊤⟩).map
      (fun t => t.connectCalls) ≠ some 1 := by
  constructor <;> decide

/-- Claim C2 (amended): an invocation of reconnect that passes the in-flight
guard and the attempt-budget check draws one backoff delay and then loops:
each iteration sleeps that same delay and calls Connect once; on failure it
clears the in-flight flag and iterates again rather than returning, so when
the first Connect success is on call index f the invocation performs f + 1
Connect calls and f + 1 sleeps of the same delay, then resets the backoff and
clears the in-flight flag and returns nil. -/
theorem reconnect_loops_until_connect_succeeds (st : ClientState) (r : ℚ)
    (f : ℕ) (hguard : st.reconnecting = false)
    (hbudget : ¬ st.reconnectionAttempts ≤ (st.retry.attempts : ℕ∞)) :
    ClientState.reconnect (fun i => decide (f ≤ i)) r (f + 1) st =
      some { ret := .nilDone, connectCalls := f + 1,
             slept := List.replicate (f + 1) (st.retry.Duration r).1,
             final := { st with retry := { st.retry with attempts := 0 },
                                reconnecting := false } } := by
  have hloop := reconnectLoop_first_success (fun i => decide (f ≤ i)) f 0
    { st with retry := (st.retry.Duration r).2, reconnecting := true }
    (fun i hi => by simp; omega) (by simp)
  unfold ClientState.reconnect
  rw [if_neg (by simp [hguard]), if_neg hbudget]
  simp only [hloop]
  have hsnd := RetryStrategy.Duration_snd st.retry r
  simp only [hsnd, RetryStrategy.Reset, Nat.zero_add]

/-- Witness for the amended C2: a concrete run in which the first Connect
call fails and the second succeeds. -/
theorem reconnect_loops_until_connect_succeeds_witness :
    ClientState.reconnect (fun i => decide (1 ≤ i)) 0 2
        ⟨⟨100, 1000, 2, 0, 5⟩, true, false, ⊤⟩ =
      some { ret := .nilDone, connectCalls := 2,
             slept := List.replicate 2
               (((⟨100, 1000, 2, 0, 5⟩ : RetryStrategy).Duration 0).1),
             final := ⟨⟨100, 1000, 2, 0, 0⟩, true, false, ⊤⟩ } :=
  reconnect_loops_until_connect_succeeds
    ⟨⟨100, 1000, 2, 0, 5⟩, true, false, ⊤⟩ 0 1 rfl (by decide)

/-- Claim C8: when no reconnection is in flight and the backoff's attempt
counter has reached the configured maximum, reconnect immediately resets the
backoff to zero attempts, leaves the in-flight flag cleared, returns the
exhaustion error, and performs no sleep and no Connect call. -/
theorem reconnect_exhausted (st : ClientState) (connect : ℕ → Bool) (r : ℚ)
    (fuel : ℕ) (hguard : st.reconnecting = false)
    (hmax : st.reconnectionAttempts ≤ (st.retry.attempts : ℕ∞)) :
    ClientState.reconnect connect r fuel st =
      some { ret := .errExhausted, connectCalls := 0, slept := [],
             final := { st with retry := { st.retry with attempts := 0 },
                                reconnecting := false } } := by
  unfold ClientState.reconnect
  rw [if_neg (by simp [hguard]), if_pos hmax]
  rfl

/-- Witness for C8: a concrete client whose attempt counter 5 has reached
the finite budget 5 takes the exhaustion path. -/
theorem reconnect_exhausted_witness :
    ClientState.reconnect (fun _ => true) 0 3
        ⟨⟨100, 1000, 2, 0, 5⟩, true, false, (5 : ℕ)⟩ =
      some { ret := .errExhausted, connectCalls := 0, slept := [],
             final := ⟨⟨100, 1000, 2, 0, 0⟩, true, false, (5 : ℕ)⟩ } :=
  reconnect_exhausted ⟨⟨100, 1000, 2, 0, 5⟩, true, false, (5 : ℕ)⟩
    (fun _ => true) 0 3 rfl (by decide)

/-- Claim C9: when reconnection is enabled, Close does not close the
underlying connection — it resets the backoff, clears the in-flight flag and
invokes reconnect on the resulting state; the underlying connection's Close
runs exactly when reconnection is disabled. -/
theorem close_reconnects_when_enabled (connect : ℕ → Bool) (r : ℚ)
    (fuel : ℕ) (st : ClientState) :
    (st.reconnection = true →
      ClientState.CloseClient connect r fuel st =
        (false, ClientState.reconnect connect r fuel
          { st with retry := { st.retry with attempts := 0 },
                    reconnecting := false })) ∧
    ((ClientState.CloseClient connect r fuel st).1 = true ↔
      st.reconnection = false) := by
  unfold ClientState.CloseClient
  constructor
  · intro h
    rw [if_pos h]
    rfl
  · by_cases h : st.reconnection <;> simp [h, RetryStrategy.Reset]

/-- Witness for C9: with reconnection enabled on a concrete client, Close
reports that the underlying connection was not closed. -/
theorem close_reconnects_when_enabled_witness :
    ClientState.CloseClient (fun _ => true) 0 1
        ⟨⟨100, 1000, 2, 0, 4⟩, true, true, ⊤⟩ =
      (false, ClientState.reconnect (fun _ => true) 0 1
        ⟨⟨100, 1000, 2, 0, 0⟩, true, false, ⊤⟩) :=
  (close_reconnects_when_enabled (fun _ => true) 0 1
    ⟨⟨100, 1000, 2, 0, 4⟩, true, true, ⊤⟩).1 rfl

/-- Modelled from the spec: the reserved frame-separator byte (0x1e); its
defining constant lives in the polling package outside the given sources,
and the spec fixes it as the frame delimiter forbidden inside text payloads. -/
def separator : ℕ := 0x1e

/-- Modelled from the spec: the binary-marker byte prepended to a binary
frame; its defining constant (named binaryPrefix in the repository) lives
outside the given sources. -/
def binaryMarker : ℕ := 0x62

/-- The errors of the polling encoder: ErrPingTimeout,
ErrSeparatorInTextFrame, ErrNonCloseFrame, and io.EOF. -/
inductive PollErr
  | pingTimeout
  | separatorInTextFrame
  | nonCloseFrame
  | eof
deriving DecidableEq

/-- The frame.Type argument of NextFrame: text or binary. -/
inductive FrameType
  | text
  | binary
deriving DecidableEq

/-- The base64 alphabet: maps a 6-bit value to the byte of the standard
alphabet character encoding it. -/
def b64char (n : ℕ) : ℕ :=
  if n < 26 then 65 + n
  else if n < 52 then 71 + n
  else if n < 62 then n - 4
  else if n = 62 then 43
  else 47

/-- The byte of the base64 padding character. -/
def b64pad : ℕ := 61

/-- Inverse of the base64 alphabet: maps an alphabet byte back to its 6-bit
value. -/
def b64val (c : ℕ) : ℕ :=
  if 65 ≤ c ∧ c ≤ 90 then c - 65
  else if 97 ≤ c ∧ c ≤ 122 then c - 71
  else if 48 ≤ c ∧ c ≤ 57 then c + 4
  else if c = 43 then 62
  else 63

/-- Standard base64 encoding of a byte list, three input bytes to four
alphabet bytes, with padding on a trailing group of one or two bytes.
Models Go's encoding/base64 StdEncoding, which the source routes binary
frame payloads through. -/
def b64encode : List ℕ → List ℕ
  | [] => []
  | [a] => [b64char (a / 4), b64char (a % 4 * 16), b64pad, b64pad]
  | [a, b] =>
      [b64char (a / 4), b64char (a % 4 * 16 + b / 16), b64char (b % 16 * 4),
       b64pad]
  | a :: b :: c :: rest =>
      b64char (a / 4) :: b64char (a % 4 * 16 + b / 16) ::
      b64char (b % 16 * 4 + c / 64) :: b64char (c % 64) :: b64encode rest

/-- Standard base64 decoding, the inverse of b64encode. -/
def b64decode : List ℕ → List ℕ
  | c1 :: c2 :: c3 :: c4 :: rest =>
      if c3 = b64pad then [b64val c1 * 4 + b64val c2 / 16]
      else if c4 = b64pad then
        [b64val c1 * 4 + b64val c2 / 16, b64val c2 % 16 * 16 + b64val c3 / 4]
      else
        (b64val c1 * 4 + b64val c2 / 16) ::
        (b64val c2 % 16 * 16 + b64val c3 / 4) ::
        (b64val c3 % 4 * 64 + b64val c4) :: b64decode rest
  | _ => []

/-- Shallow embedding of the encoder struct: ping timeout and last-ping
instant (rationals for Go durations and times), the shared frame buffer
(the bufWriter is outside the given sources and is modelled from the spec
as a growable byte sequence), the single-slot coalescing ready signal
hasFrames, the closed signal (true once it has fired), and the
compare-and-swap exclusivity flag hasNonClosedFrame. -/
structure EncoderState where
  pingTimeout : ℚ
  lastPing : ℚ
  buffer : List ℕ
  hasFrames : Bool
  closed : Bool
  hasNonClosedFrame : Bool
deriving DecidableEq

/-- Shallow embedding of a frameWriter handle: whether it routes through the
base64 transcoder (binary frames), and the transcoder's pending partial
group of input bytes. The shared buffer and flags live in the encoder state
the operations also take. -/
structure frameWriter where
  isBase64 : Bool
  b64pending : List ℕ
deriving DecidableEq

/-- Embedding of encoder.NextFrame: end-of-stream once the closed signal has
fired; otherwise the compare-and-swap of the exclusivity flag, failing with
the reuse-violation error if a writer is already open; on success a fresh
writer, with the binary-marker byte appended to the buffer and base64
routing enabled when the frame type is binary. -/
def EncoderState.NextFrame (e : EncoderState) (ft : FrameType) :
    Except PollErr frameWriter × EncoderState :=
  if e.closed then (Except.error PollErr.eof, e)
  else if e.hasNonClosedFrame then (Except.error PollErr.nonCloseFrame, e)
  else
    let e1 := { e with hasNonClosedFrame := true }
    match ft with
    | FrameType.binary =>
        (Except.ok { isBase64 := true, b64pending := [] },
         { e1 with buffer := e1.buffer ++ [binaryMarker] })
    | FrameType.text =>
        (Except.ok { isBase64 := false, b64pending := [] }, e1)

/-- Embedding of frameWriter.Write: binary frames forward through the base64
transcoder (complete 3-byte groups are encoded and appended, a trailing
partial group stays pending); text frames are rejected, appending nothing,
when the payload contains the separator byte, and are appended verbatim
otherwise. -/
def frameWriter.Write (w : frameWriter) (e : EncoderState) (b : List ℕ) :
    Except PollErr ℕ × frameWriter × EncoderState :=
  if w.isBase64 then
    let total := w.b64pending ++ b
    let keep := 3 * (total.length / 3)
    (Except.ok b.length,
     { w with b64pending := total.drop keep },
     { e with buffer := e.buffer ++ b64encode (total.take keep) })
  else if separator ∈ b then
    (Except.error PollErr.separatorInTextFrame, w, e)
  else
    (Except.ok b.length, w, { e with buffer := e.buffer ++ b })

/-- Embedding of frameWriter.WriteByte: appends the byte directly to the
shared buffer, with no separator check and no base64 routing. -/
def frameWriter.WriteByte (w : frameWriter) (e : EncoderState) (b : ℕ) :
    Except PollErr Unit × frameWriter × EncoderState :=
  (Except.ok (), w, { e with buffer := e.buffer ++ [b] })

/-- Embedding of frameWriter.Close: flushes the base64 transcoder's pending
tail (with padding) for binary frames, appends the separator byte, clears
the exclusivity flag, and posts to the single-slot ready signal (a no-op if
it is already full, hence simply true afterwards). -/
def frameWriter.Close (w : frameWriter) (e : EncoderState) : EncoderState :=
  let e1 :=
    if w.isBase64 then { e with buffer := e.buffer ++ b64encode w.b64pending }
    else e
  { e1 with buffer := e1.buffer ++ [separator], hasNonClosedFrame := false,
            hasFrames := true }

/-- The remaining time until the keep-alive deadline computed at the top of
WriteFramesTo: pingTimeout minus the time elapsed since the last ping. -/
def EncoderState.remainingTimeout (e : EncoderState) (now : ℚ) : ℚ :=
  e.pingTimeout - (now - e.lastPing)

/-- The three arms of the select in WriteFramesTo: the ready signal, the
keep-alive deadline, and the closed signal. -/
inductive SelectBranch
  | ready
  | timeout
  | closedSig
deriving DecidableEq

/-- Embedding of encoder.WriteFramesTo, parametrized by which select branch
fired first (the scheduler's choice): the ready branch can fire only when
the single-slot signal is full, and consumes it, writes the entire buffer to
the output in one call and clears it; the timeout branch (taken when
remainingTimeout elapses before the others) updates lastPing to now and
returns the ping-timeout error leaving everything else unchanged; the closed
branch can fire only once the closed signal has fired and returns
end-of-stream. A branch that cannot fire in the given state yields none. -/
def EncoderState.WriteFramesTo (e : EncoderState) (br : SelectBranch)
    (now : ℚ) : Option (Except PollErr (List ℕ) × EncoderState) :=
  match br with
  | SelectBranch.ready =>
      if e.hasFrames then
        some (Except.ok e.buffer, { e with buffer := [], hasFrames := false })
      else none
  | SelectBranch.timeout =>
      some (Except.error PollErr.pingTimeout, { e with lastPing := now })
  | SelectBranch.closedSig =>
      if e.closed then some (Except.error PollErr.eof, e) else none

/-- One whole binary-frame round: open a binary frame, write the payload
through it, close it; the resulting encoder state, or the error of the step
that failed. -/
def writeBinaryFrame (e : EncoderState) (p : List ℕ) :
    Except PollErr EncoderState :=
  match e.NextFrame FrameType.binary with
  | (Except.error err, _) => Except.error err
  | (Except.ok w, e1) =>
    match w.Write e1 p with
    | (Except.error err, _, _) => Except.error err
    | (Except.ok _, w2, e2) => Except.ok (w2.Close e2)

/-- Whether an encoder operation succeeded. -/
def exOk {A : Type} : Except PollErr A → Bool
  | Except.ok _ => true
  | Except.error _ => false

lemma b64val_b64char : ∀ n, n < 64 → b64val (b64char n) = n := by decide

lemma b64char_ne_pad : ∀ n, n < 64 → b64char n ≠ b64pad := by decide

lemma b64_roundtrip : ∀ l : List ℕ, (∀ x ∈ l, x < 256) →
    b64decode (b64encode l) = l := by
  intro l
  induction l using b64encode.induct with
  | case1 => intro _; rfl
  | case2 a =>
    intro h
    have ha : a < 256 := h a (by simp)
    simp only [b64encode, b64decode, eq_self_iff_true, if_true]
    rw [b64val_b64char _ (by omega), b64val_b64char _ (by omega)]
    simp only [List.cons.injEq, and_true]
    omega
  | case3 a b =>
    intro h
    have ha : a < 256 := h a (by simp)
    have hb : b < 256 := h b (by simp)
    simp only [b64encode, b64decode, eq_self_iff_true, if_true]
    rw [if_neg (b64char_ne_pad _ (by omega))]
    rw [b64val_b64char _ (by omega), b64val_b64char _ (by omega),
        b64val_b64char _ (by omega)]
    simp only [List.cons.injEq, and_true]
    constructor <;> omega
  | case4 a b c rest ih =>
    intro h
    have ha : a < 256 := h a (by simp)
    have hb : b < 256 := h b (by simp)
    have hc : c < 256 := h c (by simp)
    simp only [b64encode, b64decode]
    rw [if_neg (b64char_ne_pad _ (by omega)),
        if_neg (b64char_ne_pad _ (by omega))]
    rw [b64val_b64char _ (by omega), b64val_b64char _ (by omega),
        b64val_b64char _ (by omega), b64val_b64char _ (by omega)]
    rw [ih (fun x hx => h x (by simp [hx]))]
    simp only [List.cons.injEq, and_true]
    refine ⟨by omega, by omega, by omega⟩

lemma b64encode_append : ∀ (xs ys : List ℕ), xs.length % 3 = 0 →
    b64encode (xs ++ ys) = b64encode xs ++ b64encode ys := by
  intro xs
  induction xs using b64encode.induct with
  | case1 => intro ys _; simp [b64encode]
  | case2 a => intro ys h; simp at h
  | case3 a b => intro ys h; simp at h
  | case4 a b c rest ih =>
    intro ys h
    have hr : rest.length % 3 = 0 := by
      simp [List.length_cons] at h
      omega
    simp only [List.cons_append, b64encode, List.append_eq, ih ys hr]

lemma b64encode_take_drop (p : List ℕ) :
    b64encode (p.take (3 * (p.length / 3))) ++
      b64encode (p.drop (3 * (p.length / 3))) = b64encode p := by
  rw [← b64encode_append]
  · rw [List.take_append_drop]
  · rw [List.length_take]
    have h1 : 3 * (p.length / 3) ≤ p.length := by omega
    rw [Nat.min_eq_left h1]
    omega

/-- Claim C4: writing a byte sequence that contains the reserved separator
byte to an open text-frame writer fails with the separator-in-text-frame
error and appends nothing — the writer and the encoder state, its shared
buffer included, are exactly as before the call. -/
theorem write_separator_text_rejected (w : frameWriter) (e : EncoderState)
    (b : List ℕ) (ht : w.isBase64 = false) (hs : separator ∈ b) :
    frameWriter.Write w e b =
      (Except.error PollErr.separatorInTextFrame, w, e) := by
  unfold frameWriter.Write
  rw [if_neg (by simp [ht]), if_pos hs]

/-- Witness for C4: a concrete text write whose middle byte is the
separator is rejected and leaves the state untouched. -/
theorem write_separator_text_rejected_witness :
    frameWriter.Write ⟨false, []⟩ ⟨25000, 0, [97], false, false, true⟩
        [98, 0x1e, 99] =
      (Except.error PollErr.separatorInTextFrame, ⟨false, []⟩,
       ⟨25000, 0, [97], false, false, true⟩) :=
  write_separator_text_rejected ⟨false, []⟩
    ⟨25000, 0, [97], false, false, true⟩ [98, 0x1e, 99] rfl (by decide)

/-- Claim C10: WriteByte appends its byte to the shared buffer with no
error and no separator check, for every byte — including the reserved
separator byte, which can therefore enter a text frame's payload through
WriteByte without any error being raised. -/
theorem write_byte_bypasses_separator_check (w : frameWriter)
    (e : EncoderState) (b : ℕ) :
    frameWriter.WriteByte w e b =
      (Except.ok (), w, { e with buffer := e.buffer ++ [b] }) ∧
    frameWriter.WriteByte w e separator =
      (Except.ok (), w, { e with buffer := e.buffer ++ [separator] }) :=
  ⟨rfl, rfl⟩

/-- Claim C5: NextFrame returns end-of-stream whenever the closed signal has
fired; otherwise, with a previously returned writer still unclosed, it fails
with the reuse-violation error; and after that writer's Close a second
NextFrame call succeeds. -/
theorem next_frame_exclusivity (e : EncoderState) (ft : FrameType) :
    (e.closed = true → e.NextFrame ft = (Except.error PollErr.eof, e)) ∧
    (e.closed = false → e.hasNonClosedFrame = true →
      e.NextFrame ft = (Except.error PollErr.nonCloseFrame, e)) ∧
    (e.closed = false → e.hasNonClosedFrame = false →
      ∀ w e1, e.NextFrame ft = (Except.ok w, e1) →
        exOk ((frameWriter.Close w e1).NextFrame ft).1 = true) := by
  refine ⟨?_, ?_, ?_⟩
  · intro h
    unfold EncoderState.NextFrame
    rw [if_pos h]
  · intro h1 h2
    unfold EncoderState.NextFrame
    rw [if_neg (by simp [h1]), if_pos h2]
  · intro h1 h2 w e1 heq
    unfold EncoderState.NextFrame at heq
    rw [if_neg (by simp [h1]), if_neg (by simp [h2])] at heq
    cases ft
    · simp only [Prod.mk.injEq, Except.ok.injEq] at heq
      obtain ⟨hw, he⟩ := heq
      subst hw
      subst he
      simp [frameWriter.Close, EncoderState.NextFrame, h1, exOk]
    · simp only [Prod.mk.injEq, Except.ok.injEq] at heq
      obtain ⟨hw, he⟩ := heq
      subst hw
      subst he
      simp [frameWriter.Close, EncoderState.NextFrame, h1, exOk]

/-- Witness for C5: concrete closed, busy and free encoders take the three
paths, the free one accepting a second NextFrame after the first writer's
Close. -/
theorem next_frame_exclusivity_witness :
    EncoderState.NextFrame ⟨25000, 0, [], false, true, false⟩ FrameType.text =
      (Except.error PollErr.eof, ⟨25000, 0, [], false, true, false⟩) ∧
    EncoderState.NextFrame ⟨25000, 0, [], false, false, true⟩ FrameType.text =
      (Except.error PollErr.nonCloseFrame,
       ⟨25000, 0, [], false, false, true⟩) ∧
    exOk ((frameWriter.Close ⟨false, []⟩
        ⟨25000, 0, [], false, false, true⟩).NextFrame FrameType.text).1 =
      true :=
  ⟨(next_frame_exclusivity ⟨25000, 0, [], false, true, false⟩
      FrameType.text).1 rfl,
   (next_frame_exclusivity ⟨25000, 0, [], false, false, true⟩
      FrameType.text).2.1 rfl rfl,
   (next_frame_exclusivity ⟨25000, 0, [], false, false, false⟩
      FrameType.text).2.2 rfl rfl ⟨false, []⟩
     ⟨25000, 0, [], false, false, true⟩ rfl⟩

/-- Claim C6: a binary frame written in one Write and closed appends exactly
the binary-marker byte, the standard base64 encoding of the payload, and the
separator byte to the buffer; decoding that base64 portion reproduces the
payload. -/
theorem binary_frame_encoding (e : EncoderState) (p : List ℕ)
    (hc : e.closed = false) (hf : e.hasNonClosedFrame = false)
    (hb : ∀ x ∈ p, x < 256) :
    (writeBinaryFrame e p).map EncoderState.buffer =
      Except.ok (e.buffer ++ binaryMarker :: (b64encode p ++ [separator])) ∧
    b64decode (b64encode p) = p := by
  refine ⟨?_, b64_roundtrip p hb⟩
  have key := b64encode_take_drop p
  unfold writeBinaryFrame EncoderState.NextFrame
  rw [if_neg (by simp [hc]), if_neg (by simp [hf])]
  simp only [frameWriter.Write, if_true, List.nil_append, frameWriter.Close,
    Except.map, List.append_assoc]
  rw [← List.append_assoc (b64encode (p.take (3 * (p.length / 3)))), key]
  simp

/-- Witness for C6: the payload 1, 2, 3, 4 run through a fresh binary frame
yields marker, its base64 encoding, separator, and decodes back. -/
theorem binary_frame_encoding_witness :
    (writeBinaryFrame ⟨25000, 0, [7], false, false, false⟩
        [1, 2, 3, 4]).map EncoderState.buffer =
      Except.ok ([7] ++ binaryMarker ::
        (b64encode [1, 2, 3, 4] ++ [separator])) ∧
    b64decode (b64encode [1, 2, 3, 4]) = [1, 2, 3, 4] :=
  binary_frame_encoding ⟨25000, 0, [7], false, false, false⟩ [1, 2, 3, 4]
    rfl rfl (by decide)

/-- Claim C7: WriteFramesTo has exactly three outcomes — when the ready
signal fires it consumes the signal and returns the entire buffer contents
as the one flushed write, clearing the buffer; when the keep-alive deadline
elapses first it sets lastPing to now and returns the ping-timeout error
with the state otherwise unchanged; when the closed signal fires it returns
end-of-stream. -/
theorem write_frames_to_outcomes (e : EncoderState) (now : ℚ) :
    (e.hasFrames = true →
      e.WriteFramesTo SelectBranch.ready now =
        some (Except.ok e.buffer,
              { e with buffer := [], hasFrames := false })) ∧
    (e.WriteFramesTo SelectBranch.timeout now =
      some (Except.error PollErr.pingTimeout, { e with lastPing := now })) ∧
    (e.closed = true →
      e.WriteFramesTo SelectBranch.closedSig now =
        some (Except.error PollErr.eof, e)) := by
  refine ⟨fun h => ?_, rfl, fun h => ?_⟩
  · simp [EncoderState.WriteFramesTo, h]
  · simp [EncoderState.WriteFramesTo, h]

/-- Witness for C7: the three outcomes on a concrete encoder that has both
buffered frames and a fired closed signal. -/
theorem write_frames_to_outcomes_witness :
    EncoderState.WriteFramesTo ⟨25000, 0, [1, 2], true, true, false⟩
        SelectBranch.ready 9 =
      some (Except.ok [1, 2], ⟨25000, 0, [], false, true, false⟩) ∧
    EncoderState.WriteFramesTo ⟨25000, 0, [1, 2], true, true, false⟩
        SelectBranch.timeout 9 =
      some (Except.error PollErr.pingTimeout,
            ⟨25000, 9, [1, 2], true, true, false⟩) ∧
    EncoderState.WriteFramesTo ⟨25000, 0, [1, 2], true, true, false⟩
        SelectBranch.closedSig 9 =
      some (Except.error PollErr.eof, ⟨25000, 0, [1, 2], true, true, false⟩) :=
  ⟨(write_frames_to_outcomes ⟨25000, 0, [1, 2], true, true, false⟩ 9).1 rfl,
   (write_frames_to_outcomes ⟨25000, 0, [1, 2], true, true, false⟩ 9).2.1,
   (write_frames_to_outcomes ⟨25000, 0, [1, 2], true, true, false⟩ 9).2.2 rfl⟩
